import Mathlib

/-!
Verification development for the single-stock trading environment
(`SingleStockTradingEnv` in `sema1.py`).

The environment's `step`/`reset` logic is shallowly embedded over exact
rationals (`ℚ` in place of Python floats, `ℤ` for the integer share
count).  The two transcendental operations used by the reward pipeline
(`np.sqrt` inside the Sharpe bonus and the steady-state normalizer, and
`np.tanh` in the final squashing) have no exact rational counterpart, so
the embedding is parameterized by a `Numerics` record carrying those two
functions; every portfolio-level fact is proved for an arbitrary
`Numerics`, and concrete evaluations instantiate it with an explicit
computable stand-in.
-/

namespace TradingEnv

/-- Models a raw floating-point cell of the data frame: either a finite
value or one of the IEEE non-finite values that `np.nan_to_num` scrubs. -/
inductive FVal where
  | fin (q : ℚ)
  | nan
  | inf
  | neginf
deriving DecidableEq, Repr

/-- `np.nan_to_num(x, nan=0.0, posinf=0.0, neginf=0.0)` on one cell. -/
def FVal.toQ : FVal → ℚ
  | .fin q => q
  | .nan => 0
  | .inf => 0
  | .neginf => 0

/-- One row of the (externally supplied) data frame: the scaled feature
columns used for the observation, plus the unscaled columns that the
step logic reads (`Close_unscaled`, `ADX_unscaled`, `SMA10_unscaled`,
`SMA50_unscaled`, `Volatility_unscaled`, `RSI_unscaled`) and the `Date`
column (kept abstract as a rational tag). -/
structure DataRow where
  date : ℚ
  features : List FVal
  close : ℚ
  adx : ℚ
  sma10 : ℚ
  sma50 : ℚ
  volatility : ℚ
  rsi : ℚ


instance : Inhabited DataRow := ⟨⟨0, [], 0, 0, 0, 0, 0, 0⟩⟩

/-- The `reward_weights` dictionary.  In the source every lookup is
`self.reward_weights.get(key, default)`; each key becomes a field whose
default value is the source's lookup default. -/
structure RewardWeights where
  profit_weight : ℚ := 3/2
  sharpe_bonus_weight : ℚ := 1/20
  volatility_threshold : ℚ := 1
  momentum_threshold_min : ℚ := 30
  momentum_threshold_max : ℚ := 70
  holding_bonus_weight : ℚ := 1/1000
  transaction_penalty_scale : ℚ := 1
  ema_alpha : ℚ := 1/100
  reward_norm_factor : ℚ := 1
  reward_scale : ℚ := 1


/-- Constructor parameters of `SingleStockTradingEnv` (defaults as in the
`__init__` signature).  The three trailing-stop parameters are stored but
never read by `step`; `hold_threshold` is read into a local variable whose
only use is commented out. -/
structure EnvConfig where
  initial_balance : ℚ := 100000
  stop_loss : ℚ := 9/10
  take_profit : ℚ := 11/10
  max_position_size : ℚ := 1/2
  max_drawdown : ℚ := 1/5
  transaction_cost : ℚ := 1/10000
  some_factor : ℚ := 1/100
  hold_threshold : ℚ := 1/10
  trailing_drawdown_trigger : ℚ := 1/5
  trailing_drawdown_grace : ℕ := 3
  forced_liquidation_penalty : ℚ := -5
  reward_weights : RewardWeights := {}


/-- The per-step history record appended on the normal path of `step`
(the keys of the dictionary literal at the end of the trading logic). -/
structure StepRec where
  date : ℚ
  close : ℚ
  action : ℚ
  buySignal : FVal
  sellSignal : FVal
  netWorth : ℚ
  balance : ℚ
  position : ℤ
  reward : ℚ
  rawReward : ℚ
  tradeCost : ℚ
  profitReward : ℚ
  sharpeBonus : ℚ
  forcedStopPenalty : ℚ
  forcedTpPenalty : ℚ
  drawdownPenalty : ℚ
  transactionPenalty : ℚ
  holdingBonus : ℚ
  favorableHoldFactor : ℚ
  invalidActionPenalty : ℚ
  rewardScale : ℚ
  rewardNormFactor : ℚ
  emaAlpha : ℚ


/-- A history entry: the end-of-data guard appends a smaller dictionary
(with `Action`, `Buy_Signal_Price`, `Sell_Signal_Price` set to `np.nan`),
the normal path appends a full `StepRec`. -/
inductive HistEntry where
  | overrun (date close netWorth balance : ℚ) (position : ℤ) (reward tradeCost : ℚ)
  | mainStep (rec : StepRec)


/-- The mutable state of the environment (the `self.*` fields touched by
`reset`/`step`). -/
structure EnvState where
  balance : ℚ
  position : ℤ
  net_worth : ℚ
  prev_net_worth : ℚ
  last_action : ℚ
  peak : ℚ
  current_step : ℕ
  transaction_count : ℕ
  consecutive_drawdown_steps : ℕ
  returns_window : List ℚ
  reward_history : List ℚ
  history : List HistEntry
  reward_ema : ℚ
  reward_var_ema : ℚ
  ema_alpha : ℚ
  reward_warmup_count : ℕ


/-- The transcendental primitives the reward pipeline calls
(`np.sqrt`, `np.tanh`); kept abstract since they have no exact rational
implementation. -/
structure Numerics where
  sqrt : ℚ → ℚ
  tanh : ℚ → ℚ

/-- A concrete computable stand-in instantiation of `Numerics`, used to
evaluate scenarios.  Its `tanh` is the softsign squash `x / (1 + |x|)`
(like `np.tanh`: zero at zero, sign-preserving, absolute value `< 1`);
every general theorem below holds for all `Numerics`, so nothing depends
on this particular choice. -/
def qNum : Numerics := { sqrt := fun _ => 0, tanh := fun x => x / (1 + |x|) }

/-- `np.clip(x, lo, hi)`. -/
def clipQ (x lo hi : ℚ) : ℚ := max lo (min x hi)

/-- Arithmetic mean of a list (as used by `np.mean`). -/
def listMean (l : List ℚ) : ℚ := l.sum / l.length

/-- Population variance of a list; `np.std l = sqrt (listPopVar l)`. -/
def listPopVar (l : List ℚ) : ℚ :=
  (l.map (fun x => (x - listMean l) ^ 2)).sum / l.length

/-- Result of the primary trading logic (the buy/sell/hold block). -/
structure TradeResult where
  balance : ℚ
  position : ℤ
  transactionCount : ℕ
  sharesTraded : ℤ
  tradeCost : ℚ
  invalidPenalty : ℚ


/-- The primary trading logic of `step` (`if action_value > 0: ... elif
action_value < 0: ... else: hold`), with the one-share fallbacks and the
affordability/holdings guards. -/
def executeTrade (cfg : EnvConfig) (balance : ℚ) (position : ℤ) (txCount : ℕ)
    (price a : ℚ) : TradeResult :=
  if 0 < a then
    let investment_amount := balance * a * cfg.max_position_size
    let s0 := ⌊investment_amount / price⌋
    let shares_to_buy :=
      if s0 = 0 ∧ price * (1 + cfg.transaction_cost) ≤ balance then 1 else s0
    let total_cost := (shares_to_buy : ℚ) * price * (1 + cfg.transaction_cost)
    if 0 < shares_to_buy ∧ total_cost ≤ balance then
      { balance := balance - total_cost
        position := position + shares_to_buy
        transactionCount := txCount + 1
        sharesTraded := shares_to_buy
        tradeCost := (shares_to_buy : ℚ) * price * cfg.transaction_cost
        invalidPenalty := 0 }
    else
      { balance := balance, position := position, transactionCount := txCount
        sharesTraded := 0, tradeCost := 0, invalidPenalty := -(1/100) }
  else if a < 0 then
    let proportion_to_sell := |a| * cfg.max_position_size
    let s0 := ⌊(position : ℚ) * proportion_to_sell⌋
    let shares_to_sell := if s0 = 0 ∧ 0 < position then 1 else s0
    if 0 < shares_to_sell ∧ shares_to_sell ≤ position then
      let proceeds := (shares_to_sell : ℚ) * price * (1 - cfg.transaction_cost)
      { balance := balance + proceeds
        position := position - shares_to_sell
        transactionCount := txCount + 1
        sharesTraded := shares_to_sell
        tradeCost := (shares_to_sell : ℚ) * price * cfg.transaction_cost
        invalidPenalty := 0 }
    else
      { balance := balance, position := position, transactionCount := txCount
        sharesTraded := 0, tradeCost := 0, invalidPenalty := -(1/100) }
  else
    { balance := balance, position := position, transactionCount := txCount
      sharesTraded := 0, tradeCost := 0, invalidPenalty := 0 }

/-- The drawdown-penalty computation of `step`: starts at `0`, subtracts
`2.0 + initial_balance * some_factor` once the drawdown exceeds `0.05`,
is replaced by `-abs(·) * 1.25` when the drawdown exceeds `0.1`, and the
same `-abs(·) * 1.25` normalization is re-applied once more
unconditionally after the forced-liquidation branches (which do not touch
the penalty variable). -/
def drawdownPenaltyFinal (cfg : EnvConfig) (dd : ℚ) : ℚ :=
  let dp0 : ℚ := if 1/20 < dd then 0 - (2 + cfg.initial_balance * cfg.some_factor) else 0
  let dp1 : ℚ := if 1/10 < dd then -|dp0| * (5/4) else dp0
  let dpF : ℚ := -|dp1| * (5/4); dpF

/-- The portfolio fields read and written by the forced-liquidation
branches. -/
structure PortView where
  balance : ℚ
  position : ℤ
  peak : ℚ
  prevNetWorth : ℚ
  transactionCount : ℕ
  consecutiveDrawdownSteps : ℕ
  sharesTraded : ℤ
  tradeCost : ℚ


/-- Partial forced liquidation: if the (pre-liquidation) drawdown exceeds
`0.15` and shares are held, sell `floor(position * 0.5)` shares
cost-adjusted, recompute `peak` and `prev_net_worth` from the result and
reset the consecutive-drawdown counter.  The inner `shares_to_sell > 0`
guard makes this a no-op when `floor` rounds to zero. -/
def partialLiq (cfg : EnvConfig) (price dd : ℚ) (v : PortView) : PortView :=
  if 3/20 < dd ∧ 0 < v.position then
    let shares_to_sell := ⌊(v.position : ℚ) * (1/2)⌋
    if 0 < shares_to_sell then
      let proceeds := (shares_to_sell : ℚ) * price * (1 - cfg.transaction_cost)
      let balance := v.balance + proceeds
      let position := v.position - shares_to_sell
      { balance := balance
        position := position
        peak := balance + (position : ℚ) * price
        prevNetWorth := balance + (position : ℚ) * price
        transactionCount := v.transactionCount + 1
        consecutiveDrawdownSteps := 0
        sharesTraded := shares_to_sell
        tradeCost := v.tradeCost + (shares_to_sell : ℚ) * price * cfg.transaction_cost }
    else v
  else v

/-- Full forced liquidation: if the (pre-liquidation) drawdown exceeds
`0.2` and shares are still held, sell the whole position cost-adjusted,
zero the position, and set both `peak` and `prev_net_worth` to the
resulting cash balance. -/
def fullLiq (cfg : EnvConfig) (price dd : ℚ) (v : PortView) : PortView :=
  if 1/5 < dd ∧ 0 < v.position then
    let shares_to_sell := v.position
    if 0 < shares_to_sell then
      let proceeds := (shares_to_sell : ℚ) * price * (1 - cfg.transaction_cost)
      let balance := v.balance + proceeds
      { balance := balance
        position := 0
        peak := balance
        prevNetWorth := balance
        transactionCount := v.transactionCount + 1
        consecutiveDrawdownSteps := 0
        sharesTraded := shares_to_sell
        tradeCost := v.tradeCost + (shares_to_sell : ℚ) * price * cfg.transaction_cost }
    else v
  else v

/-! ### Observation builder (`_next_observation`) -/

/-- The out-of-bounds clamp at the top of `_next_observation`
(`if self.current_step >= len(self.df): self.current_step = len(self.df) - 1`). -/
def clampStep (rows : List DataRow) (k : ℕ) : ℕ :=
  if rows.length ≤ k then rows.length - 1 else k

/-- Market-phase classification: `Sideways` unless `ADX > 25`, in which
case `Bull` if `SMA10 > SMA50` else `Bear`. -/
inductive Phase where
  | bull
  | bear
  | sideways
deriving DecidableEq, Repr

/-- The phase logic of `_next_observation` (the missing-column fallbacks
collapse because every row of the model carries its indicator fields). -/
def marketPhase (row : DataRow) : Phase :=
  if 25 < row.adx then (if row.sma50 < row.sma10 then Phase.bull else Phase.bear)
  else Phase.sideways

/-- One-hot encoding over `['Bull', 'Bear', 'Sideways']`, in that order. -/
def phaseOneHot (p : Phase) : List ℚ :=
  [if p = Phase.bull then 1 else 0,
   if p = Phase.bear then 1 else 0,
   if p = Phase.sideways then 1 else 0]

/-- The observation vector as assembled before the `np.nan_to_num` scrub:
scaled features, scaled balance / net worth / position, one-hot market
phase, current drawdown fraction, and the drawdown buffer
`max(0, max_drawdown - drawdown)`. -/
def obsAssembled (cfg : EnvConfig) (rows : List DataRow) (s : EnvState) : List FVal :=
  let row := rows.getD (clampStep rows s.current_step) default
  let current_drawdown_fraction : ℚ :=
    if 0 < s.peak then (s.peak - s.net_worth) / s.peak else 0
  let drawdown_buffer : ℚ := max 0 (cfg.max_drawdown - current_drawdown_fraction)
  row.features
    ++ [FVal.fin (s.balance / cfg.initial_balance),
        FVal.fin (s.net_worth / cfg.initial_balance),
        FVal.fin ((s.position : ℚ) / cfg.initial_balance)]
    ++ (phaseOneHot (marketPhase row)).map FVal.fin
    ++ [FVal.fin current_drawdown_fraction, FVal.fin drawdown_buffer]

/-- `_next_observation`: the assembled vector with every NaN/Infinity
replaced by `0` (`np.nan_to_num(..., nan=0.0, posinf=0.0, neginf=0.0)`;
the source applies it under an `np.isnan/np.isinf` check, which is
equivalent to applying it unconditionally). -/
def nextObservation (cfg : EnvConfig) (rows : List DataRow) (s : EnvState) : List ℚ :=
  (obsAssembled cfg rows s).map FVal.toQ

/-! ### `reset` -/

/-- `reset`: reinitializes every mutable field.  Note that it sets
`reward_ema`, `reward_var_ema`, `ema_alpha` and `reward_warmup_count`
to concrete values, so the lazily-initializing `hasattr` guards inside
`step` are always false afterwards. -/
def resetE (cfg : EnvConfig) (rows : List DataRow) : EnvState × List ℚ :=
  let s : EnvState :=
    { balance := cfg.initial_balance
      position := 0
      net_worth := cfg.initial_balance
      prev_net_worth := cfg.initial_balance
      last_action := 0
      peak := cfg.initial_balance
      current_step := 0
      transaction_count := 0
      consecutive_drawdown_steps := 0
      returns_window := []
      reward_history := []
      history := []
      reward_ema := 0
      reward_var_ema := 0
      ema_alpha := 0
      reward_warmup_count := 0 }
  (s, nextObservation cfg rows s)

/-! ### `step` — observer functions for the main (valid, in-range) path

Each observer names one intermediate value of the `step` body; `stepMain`
assembles the returned state from them, so every theorem about a field of
the post-state reduces to a statement about the corresponding observer. -/

/-- The data row `step` reads (`self.df.iloc[self.current_step]`). -/
def rowAt (rows : List DataRow) (s : EnvState) : DataRow :=
  rows.getD s.current_step default

/-- `current_price = float(current_data['Close_unscaled'])`. -/
def priceAt (rows : List DataRow) (s : EnvState) : ℚ :=
  (rowAt rows s).close

/-- The result of the primary trading logic for this step. -/
def tradeOf (cfg : EnvConfig) (rows : List DataRow) (s : EnvState) (a : ℚ) : TradeResult :=
  executeTrade cfg s.balance s.position s.transaction_count (priceAt rows s) a

/-- Post-trade net worth (`net_worth = balance + position * current_price`,
computed before any forced liquidation). -/
def nw1Of (cfg : EnvConfig) (rows : List DataRow) (s : EnvState) (a : ℚ) : ℚ :=
  (tradeOf cfg rows s a).balance + ((tradeOf cfg rows s a).position : ℚ) * priceAt rows s

/-- `net_worth_change = net_worth - self.prev_net_worth`. -/
def nwChangeOf (cfg : EnvConfig) (rows : List DataRow) (s : EnvState) (a : ℚ) : ℚ :=
  nw1Of cfg rows s a - s.prev_net_worth

/-- `self.peak = max(self.peak, net_worth)` (the peak update preceding the
drawdown computation). -/
def peak1Of (cfg : EnvConfig) (rows : List DataRow) (s : EnvState) (a : ℚ) : ℚ :=
  max s.peak (nw1Of cfg rows s a)

/-- `current_drawdown = (peak - net_worth)/peak if peak > 0 else 0.0`. -/
def ddOf (cfg : EnvConfig) (rows : List DataRow) (s : EnvState) (a : ℚ) : ℚ :=
  if 0 < peak1Of cfg rows s a
  then (peak1Of cfg rows s a - nw1Of cfg rows s a) / peak1Of cfg rows s a
  else 0

/-- The portfolio view entering the forced-liquidation branches. -/
def v0Of (cfg : EnvConfig) (rows : List DataRow) (s : EnvState) (a : ℚ) : PortView :=
  { balance := (tradeOf cfg rows s a).balance
    position := (tradeOf cfg rows s a).position
    peak := peak1Of cfg rows s a
    prevNetWorth := s.prev_net_worth
    transactionCount := (tradeOf cfg rows s a).transactionCount
    consecutiveDrawdownSteps := s.consecutive_drawdown_steps
    sharesTraded := (tradeOf cfg rows s a).sharesTraded
    tradeCost := (tradeOf cfg rows s a).tradeCost }

/-- The portfolio view after the partial-liquidation branch. -/
def v1Of (cfg : EnvConfig) (rows : List DataRow) (s : EnvState) (a : ℚ) : PortView :=
  partialLiq cfg (priceAt rows s) (ddOf cfg rows s a) (v0Of cfg rows s a)

/-- The portfolio view after both forced-liquidation branches. -/
def v2Of (cfg : EnvConfig) (rows : List DataRow) (s : EnvState) (a : ℚ) : PortView :=
  fullLiq cfg (priceAt rows s) (ddOf cfg rows s a) (v1Of cfg rows s a)

/-- The net worth recomputed after the forced liquidations
(`net_worth = float(self.balance + self.position * current_price)`). -/
def nw2Of (cfg : EnvConfig) (rows : List DataRow) (s : EnvState) (a : ℚ) : ℚ :=
  (v2Of cfg rows s a).balance + ((v2Of cfg rows s a).position : ℚ) * priceAt rows s

/-- The rolling returns window after appending this step's return and
trimming to the last 30 entries (`append` then `pop(0)` when over 30). -/
def returnsWindowOf (cfg : EnvConfig) (rows : List DataRow) (s : EnvState) (a : ℚ) : List ℚ :=
  let w := s.returns_window ++ [nwChangeOf cfg rows s a / cfg.initial_balance]
  if 30 < w.length then w.tail else w

/-- Sharpe-like bonus: active once the window holds at least 10 returns;
`np.std` is `sqrt` of the population variance. -/
def sharpeBonusOf (num : Numerics) (cfg : EnvConfig) (rows : List DataRow)
    (s : EnvState) (a : ℚ) : ℚ :=
  let w := returnsWindowOf cfg rows s a
  if 10 ≤ w.length then
    let mean_return := listMean w
    let std_return := num.sqrt (listPopVar w) + 1/1000000000
    mean_return / std_return * cfg.reward_weights.sharpe_bonus_weight
  else 0

/-- `forced_stop_penalty = -3.0` iff post-trade net worth is at most
`initial_balance * stop_loss` while holding shares. -/
def forcedStopPenaltyOf (cfg : EnvConfig) (rows : List DataRow) (s : EnvState) (a : ℚ) : ℚ :=
  if nw1Of cfg rows s a ≤ cfg.initial_balance * cfg.stop_loss ∧ 0 < (tradeOf cfg rows s a).position
  then -3 else 0

/-- `forced_tp_penalty = -1.0` iff post-trade net worth is at least
`initial_balance * take_profit` while holding shares. -/
def forcedTpPenaltyOf (cfg : EnvConfig) (rows : List DataRow) (s : EnvState) (a : ℚ) : ℚ :=
  if cfg.initial_balance * cfg.take_profit ≤ nw1Of cfg rows s a ∧ 0 < (tradeOf cfg rows s a).position
  then -1 else 0

/-- `profit_reward = (net_worth_change / initial_balance) * profit_weight`. -/
def profitRewardOf (cfg : EnvConfig) (rows : List DataRow) (s : EnvState) (a : ℚ) : ℚ :=
  nwChangeOf cfg rows s a / cfg.initial_balance * cfg.reward_weights.profit_weight

/-- The holding bonus: hold factor (small action), low-volatility factor,
and RSI band factor, scaled by the post-liquidation net worth. -/
def holdingBonusOf (cfg : EnvConfig) (rows : List DataRow) (s : EnvState) (a : ℚ) : ℚ :=
  let row := rowAt rows s
  let hold_factor := max 0 (1 - |a| / (1/10))
  let volatility_factor := 1 - clipQ (row.volatility / cfg.reward_weights.volatility_threshold) 0 1
  let rsi_factor :=
    if cfg.reward_weights.momentum_threshold_min < cfg.reward_weights.momentum_threshold_max then
      clipQ ((row.rsi - cfg.reward_weights.momentum_threshold_min) /
        (cfg.reward_weights.momentum_threshold_max - cfg.reward_weights.momentum_threshold_min)) 0 1
    else 0
  hold_factor * volatility_factor * rsi_factor * cfg.reward_weights.holding_bonus_weight *
    nw2Of cfg rows s a

/-- `favorable_hold_factor` as recorded in the history entry. -/
def favorableHoldFactorOf (cfg : EnvConfig) (rows : List DataRow) (s : EnvState) (a : ℚ) : ℚ :=
  let row := rowAt rows s
  let hold_factor := max 0 (1 - |a| / (1/10))
  let volatility_factor := 1 - clipQ (row.volatility / cfg.reward_weights.volatility_threshold) 0 1
  let rsi_factor :=
    if cfg.reward_weights.momentum_threshold_min < cfg.reward_weights.momentum_threshold_max then
      clipQ ((row.rsi - cfg.reward_weights.momentum_threshold_min) /
        (cfg.reward_weights.momentum_threshold_max - cfg.reward_weights.momentum_threshold_min)) 0 1
    else 0
  hold_factor * volatility_factor * rsi_factor

/-- `transaction_penalty = -(trade_cost / initial_balance) * scale`, with
`trade_cost` accumulated over the primary trade and both liquidations. -/
def transactionPenaltyOf (cfg : EnvConfig) (rows : List DataRow) (s : EnvState) (a : ℚ) : ℚ :=
  let tp := -((v2Of cfg rows s a).tradeCost / cfg.initial_balance) *
    cfg.reward_weights.transaction_penalty_scale; tp

/-- `raw_reward`: the sum of all reward components. -/
def rawRewardOf (num : Numerics) (cfg : EnvConfig) (rows : List DataRow)
    (s : EnvState) (a : ℚ) : ℚ :=
  profitRewardOf cfg rows s a + sharpeBonusOf num cfg rows s a +
    forcedStopPenaltyOf cfg rows s a + forcedTpPenaltyOf cfg rows s a +
    drawdownPenaltyFinal cfg (ddOf cfg rows s a) +
    transactionPenaltyOf cfg rows s a + holdingBonusOf cfg rows s a +
    (tradeOf cfg rows s a).invalidPenalty

/-- The pre-squash normalized reward: during warm-up
(`reward_warmup_count < 10`) simply the raw reward; afterwards the raw
reward standardized against the previous EMA mean/variance.  (Since
`reset` always initializes `reward_ema`, the `hasattr` cold-start branch
of the source is unreachable and does not appear here.) -/
def normalized0Of (num : Numerics) (cfg : EnvConfig) (rows : List DataRow)
    (s : EnvState) (a : ℚ) : ℚ :=
  if s.reward_warmup_count < 10 then rawRewardOf num cfg rows s a
  else (rawRewardOf num cfg rows s a - s.reward_ema) /
    (num.sqrt s.reward_var_ema + 1/100000000)

/-- The reward value actually returned (before the bankruptcy `-10`):
`tanh(normalized / reward_norm_factor) * reward_scale`.  This block sits
inside the `else` of the dead `hasattr` guard, so it applies to the
warm-up branch as well. -/
def normalizedRewardOf (num : Numerics) (cfg : EnvConfig) (rows : List DataRow)
    (s : EnvState) (a : ℚ) : ℚ :=
  num.tanh (normalized0Of num cfg rows s a / cfg.reward_weights.reward_norm_factor) *
    cfg.reward_weights.reward_scale

/-- EMA mean update (identical in the warm-up and steady-state branches):
`ema' = alpha * raw + (1 - alpha) * ema`. -/
def emaAfterOf (num : Numerics) (cfg : EnvConfig) (rows : List DataRow)
    (s : EnvState) (a : ℚ) : ℚ :=
  cfg.reward_weights.ema_alpha * rawRewardOf num cfg rows s a +
    (1 - cfg.reward_weights.ema_alpha) * s.reward_ema

/-- EMA variance update (identical in both branches):
`var' = alpha * (raw - ema)^2 + (1 - alpha) * var`. -/
def varAfterOf (num : Numerics) (cfg : EnvConfig) (rows : List DataRow)
    (s : EnvState) (a : ℚ) : ℚ :=
  cfg.reward_weights.ema_alpha * (rawRewardOf num cfg rows s a - s.reward_ema) ^ 2 +
    (1 - cfg.reward_weights.ema_alpha) * s.reward_var_ema

/-- The bankruptcy test of the termination check
(`current_step >= MIN_STEPS` and `net_worth <= 0`). -/
def bankruptOf (cfg : EnvConfig) (rows : List DataRow) (s : EnvState) (a : ℚ) : Bool :=
  decide (10 ≤ s.current_step ∧ nw2Of cfg rows s a ≤ 0)

/-- The `terminated` flag: bankruptcy, or end of data
(`current_step >= len(df) - 1`, only checked when not bankrupt — the
flag value is the same either way). -/
def terminatedOf (cfg : EnvConfig) (rows : List DataRow) (s : EnvState) (a : ℚ) : Bool :=
  bankruptOf cfg rows s a ||
    decide (10 ≤ s.current_step ∧ rows.length - 1 ≤ s.current_step)

/-- The history record appended on the main path. -/
def histEntryOf (num : Numerics) (cfg : EnvConfig) (rows : List DataRow)
    (s : EnvState) (a : ℚ) : HistEntry :=
  HistEntry.mainStep
    { date := (rowAt rows s).date
      close := priceAt rows s
      action := a
      buySignal := if 0 < a then FVal.fin (priceAt rows s) else FVal.nan
      sellSignal := if a < 0 then FVal.fin (priceAt rows s) else FVal.nan
      netWorth := nw2Of cfg rows s a
      balance := (v2Of cfg rows s a).balance
      position := (v2Of cfg rows s a).position
      reward := normalizedRewardOf num cfg rows s a
      rawReward := rawRewardOf num cfg rows s a
      tradeCost := (v2Of cfg rows s a).tradeCost
      profitReward := profitRewardOf cfg rows s a
      sharpeBonus := sharpeBonusOf num cfg rows s a
      forcedStopPenalty := forcedStopPenaltyOf cfg rows s a
      forcedTpPenalty := forcedTpPenaltyOf cfg rows s a
      drawdownPenalty := drawdownPenaltyFinal cfg (ddOf cfg rows s a)
      transactionPenalty := transactionPenaltyOf cfg rows s a
      holdingBonus := holdingBonusOf cfg rows s a
      favorableHoldFactor := favorableHoldFactorOf cfg rows s a
      invalidActionPenalty := (tradeOf cfg rows s a).invalidPenalty
      rewardScale := cfg.reward_weights.reward_scale
      rewardNormFactor := cfg.reward_weights.reward_norm_factor
      emaAlpha := cfg.reward_weights.ema_alpha }

/-- The post-state of the main path: liquidation results, updated EMA
state, appended history, `prev_net_worth`/`current_step` updated only
when not terminated, and the final `min(current_step, len(df) - 1)`
clamp. -/
def stateAfterOf (num : Numerics) (cfg : EnvConfig) (rows : List DataRow)
    (s : EnvState) (a : ℚ) : EnvState :=
  { balance := (v2Of cfg rows s a).balance
    position := (v2Of cfg rows s a).position
    net_worth := nw2Of cfg rows s a
    prev_net_worth :=
      if terminatedOf cfg rows s a then (v2Of cfg rows s a).prevNetWorth
      else nw2Of cfg rows s a
    last_action := s.last_action
    peak := (v2Of cfg rows s a).peak
    current_step :=
      min (if terminatedOf cfg rows s a then s.current_step else s.current_step + 1)
        (rows.length - 1)
    transaction_count := (v2Of cfg rows s a).transactionCount
    consecutive_drawdown_steps := (v2Of cfg rows s a).consecutiveDrawdownSteps
    returns_window := returnsWindowOf cfg rows s a
    reward_history := s.reward_history
    history := s.history ++ [histEntryOf num cfg rows s a]
    reward_ema := emaAfterOf num cfg rows s a
    reward_var_ema := varAfterOf num cfg rows s a
    ema_alpha := cfg.reward_weights.ema_alpha
    reward_warmup_count :=
      if s.reward_warmup_count < 10 then s.reward_warmup_count + 1
      else s.reward_warmup_count }

/-- Result of one `step` call. -/
structure StepResult where
  state : EnvState
  obs : List ℚ
  reward : ℚ
  terminated : Bool
  truncated : Bool

/-- The main (valid action, in-range index) path of `step`. -/
def stepMain (num : Numerics) (cfg : EnvConfig) (rows : List DataRow)
    (s : EnvState) (a : ℚ) : StepResult :=
  let s' := stateAfterOf num cfg rows s a
  { state := s'
    obs := nextObservation cfg rows s'
    reward :=
      if bankruptOf cfg rows s a then normalizedRewardOf num cfg rows s a - 10
      else normalizedRewardOf num cfg rows s a
    terminated := terminatedOf cfg rows s a
    truncated := false }

/-- `step`: action validation (out-of-bounds actions terminate with
reward `-1000` and no portfolio mutation beyond the observation-builder
index clamp), the end-of-data guard (terminates with reward `-1000` and
logs the last known state), then the main path.  The local
`hold_threshold` read is dead: its only use in the source is inside a
commented-out block. -/
def stepE (num : Numerics) (cfg : EnvConfig) (rows : List DataRow)
    (s : EnvState) (a : ℚ) : StepResult :=
  let _hold_threshold := cfg.hold_threshold
  if ¬(-1 ≤ a ∧ a ≤ 1) then
    let s' : EnvState := { s with current_step := clampStep rows s.current_step }
    { state := s'
      obs := nextObservation cfg rows s'
      reward := -1000
      terminated := true
      truncated := false }
  else if rows.length ≤ s.current_step then
    let k := clampStep rows s.current_step
    let row := rows.getD k default
    let s' : EnvState :=
      { s with current_step := k
               history := s.history ++
                 [HistEntry.overrun row.date row.close s.net_worth s.balance s.position (-1000) 0] }
    { state := s'
      obs := nextObservation cfg rows { s with current_step := k }
      reward := -1000
      terminated := true
      truncated := false }
  else
    stepMain num cfg rows s a

/-- The `raw_reward` field of the most recent history entry (`0` if the
last entry is an overrun record or the history is empty). -/
def lastRawReward (s : EnvState) : ℚ :=
  match s.history.getLast? with
  | some (HistEntry.mainStep rec) => rec.rawReward
  | _ => 0

/-! ### Concrete scenario data -/

/-- Default construction with the documented `0.001` transaction cost of
the spec's scenarios. -/
def cfgT : EnvConfig := { transaction_cost := 1/1000 }

/-- A row at price 100 with volatility at the threshold (holding bonus
vanishes) and one non-finite feature cell. -/
def rowP100 : DataRow :=
  { date := 0, features := [FVal.fin 1, FVal.nan, FVal.inf]
    close := 100, adx := 0, sma10 := 0, sma50 := 0, volatility := 1, rsi := 0 }

/-- Scenario A data: a single row at price 100. -/
def rowsA : List DataRow := [rowP100]

/-- Scenario A start state: fresh reset (balance 100000, no position). -/
def sA : EnvState := (resetE cfgT rowsA).1

/-! ### Helper lemmas -/

/-- On a valid action with an in-range step index, `step` takes its main
path. -/
lemma stepE_main_path (num : Numerics) (cfg : EnvConfig) (rows : List DataRow)
    (s : EnvState) (a : ℚ) (hv : -1 ≤ a ∧ a ≤ 1) (hk : s.current_step < rows.length) :
    stepE num cfg rows s a = stepMain num cfg rows s a := by
  simp only [stepE]
  rw [if_neg (not_not_intro hv), if_neg (not_le.mpr hk)]

/-- The primary trading logic preserves nonnegativity of cash and
position: buys are guarded by affordability, sells by the holdings
bound. -/
lemma executeTrade_nonneg (cfg : EnvConfig) (b : ℚ) (p : ℤ) (n : ℕ) (price a : ℚ)
    (hb : 0 ≤ b) (hp : 0 ≤ p) (hprice : 0 ≤ price) (hc : cfg.transaction_cost ≤ 1) :
    0 ≤ (executeTrade cfg b p n price a).balance ∧
    0 ≤ (executeTrade cfg b p n price a).position := by
  simp only [executeTrade]
  split_ifs with h1 h2 h3 h4 h5 h6 h7 h8 <;> (try dsimp only)
  · push_cast
    exact ⟨by push_cast at h3; linarith [h3.2], by omega⟩
  · exact ⟨hb, hp⟩
  · exact ⟨by linarith [h4.2], by have := h4.1; omega⟩
  · exact ⟨hb, hp⟩
  · have h9 : (0 : ℚ) ≤ price * (1 - cfg.transaction_cost) :=
      mul_nonneg hprice (by linarith)
    exact ⟨by push_cast; linarith, by have := h7.2; omega⟩
  · exact ⟨hb, hp⟩
  · have h9 : (0 : ℚ) ≤ ((⌊(p : ℚ) * (|a| * cfg.max_position_size)⌋ : ℤ) : ℚ) := by
      exact_mod_cast h8.1.le
    have h10 : (0 : ℚ) ≤ 1 - cfg.transaction_cost := by linarith
    have h11 := mul_nonneg (mul_nonneg h9 hprice) h10
    exact ⟨by linarith, by have := h8.2; omega⟩
  · exact ⟨hb, hp⟩
  · exact ⟨hb, hp⟩

/-- Partial forced liquidation preserves nonnegativity: it sells
`floor(position * 0.5) ≤ position` shares for nonnegative proceeds. -/
lemma partialLiq_nonneg (cfg : EnvConfig) (price dd : ℚ) (v : PortView)
    (hb : 0 ≤ v.balance) (hp : 0 ≤ v.position)
    (hprice : 0 ≤ price) (hc : cfg.transaction_cost ≤ 1) :
    0 ≤ (partialLiq cfg price dd v).balance ∧ 0 ≤ (partialLiq cfg price dd v).position := by
  simp only [partialLiq]
  split_ifs with h1 h2 <;> (try dsimp only)
  · have h5 : (0 : ℚ) ≤ ((⌊(v.position : ℚ) * (1/2)⌋ : ℤ) : ℚ) := by exact_mod_cast h2.le
    have h6 : (0 : ℚ) ≤ 1 - cfg.transaction_cost := by linarith
    have h7 := mul_nonneg (mul_nonneg h5 hprice) h6
    have h8 : ((⌊(v.position : ℚ) * (1/2)⌋ : ℤ) : ℚ) ≤ ((v.position : ℤ) : ℚ) := by
      have h9 := Int.floor_le ((v.position : ℚ) * (1/2))
      have h10 : (0 : ℚ) ≤ (v.position : ℚ) := by exact_mod_cast hp
      linarith
    have h11 : ⌊(v.position : ℚ) * (1/2)⌋ ≤ v.position := by exact_mod_cast h8
    constructor
    · push_cast at h7 ⊢
      linarith
    · omega
  · exact ⟨hb, hp⟩
  · exact ⟨hb, hp⟩

/-- Full forced liquidation preserves nonnegativity: the whole position is
sold for nonnegative proceeds and the position is set to zero. -/
lemma fullLiq_nonneg (cfg : EnvConfig) (price dd : ℚ) (v : PortView)
    (hb : 0 ≤ v.balance) (hp : 0 ≤ v.position)
    (hprice : 0 ≤ price) (hc : cfg.transaction_cost ≤ 1) :
    0 ≤ (fullLiq cfg price dd v).balance ∧ 0 ≤ (fullLiq cfg price dd v).position := by
  simp only [fullLiq]
  split_ifs with h1 h2 <;> (try dsimp only)
  · have h5 : (0 : ℚ) ≤ (v.position : ℚ) := by exact_mod_cast hp
    have h6 : (0 : ℚ) ≤ 1 - cfg.transaction_cost := by linarith
    have h7 := mul_nonneg (mul_nonneg h5 hprice) h6
    exact ⟨by linarith, le_refl 0⟩
  · exact ⟨hb, hp⟩
  · exact ⟨hb, hp⟩

/-- The row `step` reads on the main path is a member of the data frame. -/
lemma rowAt_mem (rows : List DataRow) (s : EnvState) (hk : s.current_step < rows.length) :
    rowAt rows s ∈ rows := by
  unfold rowAt
  rw [List.getD_eq_getElem rows default hk]
  exact List.getElem_mem hk

/-- When the partial-liquidation guard fails, the branch is the
identity. -/
lemma partialLiq_id (cfg : EnvConfig) (price dd : ℚ) (v : PortView)
    (h : ¬(3/20 < dd ∧ 0 < v.position)) : partialLiq cfg price dd v = v := by
  unfold partialLiq
  rw [if_neg h]

/-- When the full-liquidation guard fails, the branch is the identity. -/
lemma fullLiq_id (cfg : EnvConfig) (price dd : ℚ) (v : PortView)
    (h : ¬(1/5 < dd ∧ 0 < v.position)) : fullLiq cfg price dd v = v := by
  unfold fullLiq
  rw [if_neg h]

/-- The raw reward recorded by the main path's history entry is
`rawRewardOf`. -/
lemma lastRawReward_stepMain (num : Numerics) (cfg : EnvConfig) (rows : List DataRow)
    (s : EnvState) (a : ℚ) :
    lastRawReward (stepMain num cfg rows s a).state = rawRewardOf num cfg rows s a := by
  show lastRawReward (stateAfterOf num cfg rows s a) = _
  unfold lastRawReward stateAfterOf
  simp [histEntryOf]

/-- The clamped index used by the observation builder is always in
range for a nonempty data frame. -/
lemma clampStep_lt (rows : List DataRow) (k : ℕ) (hne : rows ≠ []) :
    clampStep rows k < rows.length := by
  have h1 : 0 < rows.length := List.length_pos.mpr hne
  unfold clampStep
  split_ifs with h <;> omega

/-- Fixed observation length: features, three scaled account values,
three one-hot phase slots, drawdown and buffer. -/
lemma nextObservation_length (cfg : EnvConfig) (rows : List DataRow) (s : EnvState)
    (nf : ℕ) (hne : rows ≠ []) (hf : ∀ row ∈ rows, row.features.length = nf) :
    (nextObservation cfg rows s).length = nf + 3 + 3 + 2 := by
  have hk := clampStep_lt rows s.current_step hne
  have hrow : rows.getD (clampStep rows s.current_step) default ∈ rows := by
    rw [List.getD_eq_getElem rows default hk]
    exact List.getElem_mem hk
  have hlen := hf _ hrow
  unfold nextObservation obsAssembled
  simp only [List.map_append, List.length_append, List.length_map, hlen, phaseOneHot]
  simp

/-! ### Claims -/

/-- C1: for every completed call to `step`, the portfolio satisfies
`position ≥ 0` and `balance ≥ 0` afterwards (buys only execute when the
cost-adjusted total is at most the balance, sells and forced liquidations
never sell more shares than are held); under these preconditions the
post-state net worth is nonnegative as well, so it can be `≤ 0` (namely
`= 0`) only where the bankruptcy branch fires. -/
theorem C1_portfolio_nonneg (num : Numerics) (cfg : EnvConfig) (rows : List DataRow)
    (s : EnvState) (a : ℚ)
    (hb : 0 ≤ s.balance) (hp : 0 ≤ s.position) (hnw : 0 ≤ s.net_worth)
    (hc : cfg.transaction_cost ≤ 1)
    (hprice : ∀ row ∈ rows, 0 ≤ row.close) :
    0 ≤ (stepE num cfg rows s a).state.balance ∧
    0 ≤ (stepE num cfg rows s a).state.position ∧
    0 ≤ (stepE num cfg rows s a).state.net_worth := by
  by_cases hv : -1 ≤ a ∧ a ≤ 1
  · by_cases hk : s.current_step < rows.length
    · rw [stepE_main_path num cfg rows s a hv hk]
      have hpr : 0 ≤ priceAt rows s := hprice _ (rowAt_mem rows s hk)
      have h0 : 0 ≤ (tradeOf cfg rows s a).balance ∧ 0 ≤ (tradeOf cfg rows s a).position :=
        executeTrade_nonneg cfg s.balance s.position s.transaction_count (priceAt rows s) a
          hb hp hpr hc
      have h1 : 0 ≤ (v1Of cfg rows s a).balance ∧ 0 ≤ (v1Of cfg rows s a).position :=
        partialLiq_nonneg cfg (priceAt rows s) (ddOf cfg rows s a) (v0Of cfg rows s a)
          h0.1 h0.2 hpr hc
      have h2 : 0 ≤ (v2Of cfg rows s a).balance ∧ 0 ≤ (v2Of cfg rows s a).position :=
        fullLiq_nonneg cfg (priceAt rows s) (ddOf cfg rows s a) (v1Of cfg rows s a)
          h1.1 h1.2 hpr hc
      have h3 : (0 : ℚ) ≤ ((v2Of cfg rows s a).position : ℚ) := by exact_mod_cast h2.2
      have h4 : 0 ≤ (v2Of cfg rows s a).balance +
          ((v2Of cfg rows s a).position : ℚ) * priceAt rows s :=
        add_nonneg h2.1 (mul_nonneg h3 hpr)
      exact ⟨h2.1, h2.2, h4⟩
    · have hk2 : rows.length ≤ s.current_step := not_lt.mp hk
      simp only [stepE]
      rw [if_neg (not_not_intro hv), if_pos hk2]
      exact ⟨hb, hp, hnw⟩
  · simp only [stepE]
    rw [if_pos hv]
    exact ⟨hb, hp, hnw⟩

/-- C1 witness: the nonnegativity invariant evaluated on Scenario A
(fresh reset, full buy at price 100). -/
theorem C1_portfolio_nonneg_witness :
    0 ≤ (stepE qNum cfgT rowsA sA 1).state.balance ∧
    0 ≤ (stepE qNum cfgT rowsA sA 1).state.position ∧
    0 ≤ (stepE qNum cfgT rowsA sA 1).state.net_worth :=
  C1_portfolio_nonneg qNum cfgT rowsA sA 1
    (by norm_num [sA, resetE, cfgT])
    (by norm_num [sA, resetE])
    (by norm_num [sA, resetE, cfgT])
    (by norm_num [cfgT])
    (by intro row hrow
        rw [rowsA, List.mem_singleton] at hrow
        subst hrow
        norm_num [rowP100])

/-- C4: an action outside `[-1, 1]` terminates the episode immediately
with reward exactly `-1000`, `terminated = True`, and no mutation of
balance, position, net worth, peak, transaction count, returns window,
EMA statistics, warm-up counter, or history.  (The only touched field is
the observation-builder's `current_step` clamp, which `_next_observation`
performs on every path.) -/
theorem C4_invalid_action_terminates (num : Numerics) (cfg : EnvConfig) (rows : List DataRow)
    (s : EnvState) (a : ℚ) (h : a < -1 ∨ 1 < a) :
    (stepE num cfg rows s a).reward = -1000 ∧
    (stepE num cfg rows s a).terminated = true ∧
    (stepE num cfg rows s a).truncated = false ∧
    (stepE num cfg rows s a).state.balance = s.balance ∧
    (stepE num cfg rows s a).state.position = s.position ∧
    (stepE num cfg rows s a).state.net_worth = s.net_worth ∧
    (stepE num cfg rows s a).state.peak = s.peak ∧
    (stepE num cfg rows s a).state.prev_net_worth = s.prev_net_worth ∧
    (stepE num cfg rows s a).state.transaction_count = s.transaction_count ∧
    (stepE num cfg rows s a).state.returns_window = s.returns_window ∧
    (stepE num cfg rows s a).state.reward_ema = s.reward_ema ∧
    (stepE num cfg rows s a).state.reward_var_ema = s.reward_var_ema ∧
    (stepE num cfg rows s a).state.reward_warmup_count = s.reward_warmup_count ∧
    (stepE num cfg rows s a).state.history = s.history := by
  have hv : ¬(-1 ≤ a ∧ a ≤ 1) := by
    rintro ⟨h1, h2⟩
    rcases h with h | h <;> linarith
  simp only [stepE]
  rw [if_pos hv]
  exact ⟨rfl, rfl, rfl, rfl, rfl, rfl, rfl, rfl, rfl, rfl, rfl, rfl, rfl, rfl⟩

/-- C4 witness: the out-of-bounds action `2.0` of Scenario E. -/
theorem C4_invalid_action_terminates_witness :
    (stepE qNum cfgT rowsA sA 2).reward = -1000 ∧
    (stepE qNum cfgT rowsA sA 2).terminated = true ∧
    (stepE qNum cfgT rowsA sA 2).truncated = false ∧
    (stepE qNum cfgT rowsA sA 2).state.balance = sA.balance ∧
    (stepE qNum cfgT rowsA sA 2).state.position = sA.position ∧
    (stepE qNum cfgT rowsA sA 2).state.net_worth = sA.net_worth ∧
    (stepE qNum cfgT rowsA sA 2).state.peak = sA.peak ∧
    (stepE qNum cfgT rowsA sA 2).state.prev_net_worth = sA.prev_net_worth ∧
    (stepE qNum cfgT rowsA sA 2).state.transaction_count = sA.transaction_count ∧
    (stepE qNum cfgT rowsA sA 2).state.returns_window = sA.returns_window ∧
    (stepE qNum cfgT rowsA sA 2).state.reward_ema = sA.reward_ema ∧
    (stepE qNum cfgT rowsA sA 2).state.reward_var_ema = sA.reward_var_ema ∧
    (stepE qNum cfgT rowsA sA 2).state.reward_warmup_count = sA.reward_warmup_count ∧
    (stepE qNum cfgT rowsA sA 2).state.history = sA.history :=
  C4_invalid_action_terminates qNum cfgT rowsA sA 2 (Or.inr (by norm_num))

/-- C2: conservation laws of the trade executor — an executed buy of `sh`
shares at price `price` moves balance by exactly `-sh*price*(1+c)` and
position by `+sh`; an executed sell moves balance by `+sh*price*(1-c)`
and position by `-sh` — together with Scenario A: balance 100000, price
100, action 1.0, max position size 0.5, cost 0.001 buys exactly 500
shares for 50050, leaving balance 49950 and position 500 (in one
transaction). -/
theorem C2_trade_conservation :
    (∀ (cfg : EnvConfig) (b : ℚ) (p : ℤ) (n : ℕ) (price a : ℚ) (sh : ℤ),
      0 < a → (executeTrade cfg b p n price a).sharesTraded = sh → 0 < sh →
      (executeTrade cfg b p n price a).balance =
        b - (sh : ℚ) * price * (1 + cfg.transaction_cost) ∧
      (executeTrade cfg b p n price a).position = p + sh) ∧
    (∀ (cfg : EnvConfig) (b : ℚ) (p : ℤ) (n : ℕ) (price a : ℚ) (sh : ℤ),
      a < 0 → (executeTrade cfg b p n price a).sharesTraded = sh → 0 < sh →
      (executeTrade cfg b p n price a).balance =
        b + (sh : ℚ) * price * (1 - cfg.transaction_cost) ∧
      (executeTrade cfg b p n price a).position = p - sh) ∧
    (∀ num : Numerics,
      (stepE num cfgT rowsA sA 1).state.balance = 49950 ∧
      (stepE num cfgT rowsA sA 1).state.position = 500 ∧
      (stepE num cfgT rowsA sA 1).state.transaction_count = 1) := by
  refine ⟨?_, ?_, ?_⟩
  · intro cfg b p n price a sh ha hsh hpos
    revert hsh
    simp only [executeTrade]
    rw [if_pos ha]
    split_ifs with h1 h2 h3
    · intro hsh
      subst hsh
      exact ⟨rfl, rfl⟩
    · intro hsh
      dsimp only at hsh
      omega
    · intro hsh
      subst hsh
      exact ⟨rfl, rfl⟩
    · intro hsh
      dsimp only at hsh
      omega
  · intro cfg b p n price a sh ha hsh hpos
    revert hsh
    simp only [executeTrade]
    rw [if_neg (not_lt.mpr ha.le), if_pos ha]
    split_ifs with h1 h2 h3
    · intro hsh
      subst hsh
      exact ⟨rfl, rfl⟩
    · intro hsh
      dsimp only at hsh
      omega
    · intro hsh
      subst hsh
      exact ⟨rfl, rfl⟩
    · intro hsh
      dsimp only at hsh
      omega
  · intro num
    refine ⟨?_, ?_, ?_⟩ <;>
      norm_num [stepE, stepMain, stateAfterOf, v2Of, v1Of, v0Of, fullLiq, partialLiq,
        tradeOf, executeTrade, priceAt, rowAt, peak1Of, nw1Of, ddOf, terminatedOf,
        bankruptOf, nw2Of, sA, resetE, cfgT, rowsA, rowP100, clampStep, List.getD]

/-- C2 witness: the buy conservation law applied at Scenario A's concrete
trade (500 shares at price 100, cost rate 0.001). -/
theorem C2_trade_conservation_witness :
    (executeTrade cfgT 100000 0 0 100 1).balance =
      100000 - (500 : ℚ) * 100 * (1 + cfgT.transaction_cost) ∧
    (executeTrade cfgT 100000 0 0 100 1).position = 0 + 500 :=
  C2_trade_conservation.1 cfgT 100000 0 0 100 1 500 (by norm_num)
    (by norm_num [executeTrade, cfgT]) (by norm_num)

/-- Scenario D data: six rows at price 100 (so step index 5 is in
range). -/
def rowsLiq : List DataRow := List.replicate 6 rowP100

/-- Scenario D start state: balance 29000, position 500, peak 100000, so
the post-trade (hold) net worth 79000 sits at exactly 21% drawdown. -/
def sLiq : EnvState :=
  { balance := 29000, position := 500, net_worth := 79000, prev_net_worth := 79000
    last_action := 0, peak := 100000, current_step := 5, transaction_count := 0
    consecutive_drawdown_steps := 0, returns_window := [], reward_history := []
    history := [], reward_ema := 0, reward_var_ema := 0, ema_alpha := 0
    reward_warmup_count := 0 }

/-- C3: full forced liquidation — whenever the (pre-liquidation) drawdown
exceeds `0.20` and shares remain after the partial branch, everything is
sold at the current price with the `(1 - cost)` adjustment, position
becomes 0 and peak is reset to the resulting balance; on Scenario D
(drawdown exactly 0.21 with position 500) both branches fire in the same
step and all 500 shares are sold. -/
theorem C3_full_liquidation :
    (∀ (cfg : EnvConfig) (price dd : ℚ) (v : PortView), 1/5 < dd → 0 < v.position →
      (fullLiq cfg price dd v).position = 0 ∧
      (fullLiq cfg price dd v).balance =
        v.balance + (v.position : ℚ) * price * (1 - cfg.transaction_cost) ∧
      (fullLiq cfg price dd v).peak = (fullLiq cfg price dd v).balance) ∧
    (∀ num : Numerics,
      ddOf cfgT rowsLiq sLiq 0 = 21/100 ∧
      (stepE num cfgT rowsLiq sLiq 0).state.position = 0 ∧
      (stepE num cfgT rowsLiq sLiq 0).state.balance = 78950 ∧
      (stepE num cfgT rowsLiq sLiq 0).state.peak = 78950) := by
  constructor
  · intro cfg price dd v hdd hpos
    simp only [fullLiq]
    rw [if_pos ⟨hdd, hpos⟩, if_pos hpos]
    exact ⟨rfl, rfl, rfl⟩
  · intro num
    refine ⟨?_, ?_, ?_, ?_⟩ <;>
      norm_num [stepE, stepMain, stateAfterOf, v2Of, v1Of, v0Of, fullLiq, partialLiq,
        tradeOf, executeTrade, priceAt, rowAt, peak1Of, nw1Of, ddOf, terminatedOf,
        bankruptOf, nw2Of, sLiq, cfgT, rowsLiq, rowP100, clampStep, List.getD,
        List.replicate]

/-- C3 witness: the full-liquidation law applied at Scenario D's
post-partial portfolio view (250 shares left, drawdown 0.21). -/
theorem C3_full_liquidation_witness :
    (fullLiq cfgT 100 (21/100) (v1Of cfgT rowsLiq sLiq 0)).position = 0 ∧
    (fullLiq cfgT 100 (21/100) (v1Of cfgT rowsLiq sLiq 0)).balance =
      (v1Of cfgT rowsLiq sLiq 0).balance +
        ((v1Of cfgT rowsLiq sLiq 0).position : ℚ) * 100 * (1 - cfgT.transaction_cost) ∧
    (fullLiq cfgT 100 (21/100) (v1Of cfgT rowsLiq sLiq 0)).peak =
      (fullLiq cfgT 100 (21/100) (v1Of cfgT rowsLiq sLiq 0)).balance :=
  C3_full_liquidation.1 cfgT 100 (21/100) (v1Of cfgT rowsLiq sLiq 0) (by norm_num)
    (by norm_num [v1Of, v0Of, partialLiq, tradeOf, executeTrade, priceAt, rowAt,
      peak1Of, nw1Of, ddOf, sLiq, cfgT, rowsLiq, rowP100, List.getD, List.replicate])

/-- C5 counterexample: `peak` is NOT monotonically non-decreasing — on
Scenario D's forced-liquidation step the running peak drops from 100000
to 78950. -/
theorem C5_peak_monotone_counterexample :
    (stepE qNum cfgT rowsLiq sLiq 0).state.peak < sLiq.peak := by
  norm_num [stepE, stepMain, stateAfterOf, v2Of, v1Of, v0Of, fullLiq, partialLiq,
    tradeOf, executeTrade, priceAt, rowAt, peak1Of, nw1Of, ddOf, terminatedOf,
    bankruptOf, nw2Of, sLiq, cfgT, rowsLiq, rowP100, clampStep, List.getD,
    List.replicate]

/-- C5 (amended): on every step in which no forced liquidation executes
(post-trade drawdown at most 0.15, or no shares held after the trade),
the peak is updated to `max(peak, net_worth)` and is therefore
non-decreasing; a forced liquidation instead resets `peak` to the
post-liquidation net worth, which can be strictly smaller. -/
theorem C5_peak_monotone_without_liquidation (num : Numerics) (cfg : EnvConfig)
    (rows : List DataRow) (s : EnvState) (a : ℚ)
    (hv : -1 ≤ a ∧ a ≤ 1) (hk : s.current_step < rows.length)
    (hno : ddOf cfg rows s a ≤ 3/20 ∨ (tradeOf cfg rows s a).position ≤ 0) :
    (stepE num cfg rows s a).state.peak = max s.peak (nw1Of cfg rows s a) ∧
    s.peak ≤ (stepE num cfg rows s a).state.peak := by
  rw [stepE_main_path num cfg rows s a hv hk]
  have h1 : v1Of cfg rows s a = v0Of cfg rows s a := by
    apply partialLiq_id
    rintro ⟨hdd, hpos⟩
    rcases hno with h | h
    · linarith
    · exact absurd hpos (not_lt.mpr h)
  have h2 : v2Of cfg rows s a = v0Of cfg rows s a := by
    show fullLiq cfg (priceAt rows s) (ddOf cfg rows s a) (v1Of cfg rows s a) = _
    rw [h1]
    apply fullLiq_id
    rintro ⟨hdd, hpos⟩
    rcases hno with h | h
    · linarith
    · exact absurd hpos (not_lt.mpr h)
  have h3 : (stepMain num cfg rows s a).state.peak = (v2Of cfg rows s a).peak := rfl
  rw [h3, h2]
  exact ⟨rfl, le_max_left _ _⟩

/-- C5 amended witness: a hold step with zero drawdown keeps the peak at
`max(peak, net_worth)`. -/
theorem C5_peak_monotone_without_liquidation_witness :
    (stepE qNum cfgT rowsA sA 0).state.peak = max sA.peak (nw1Of cfgT rowsA sA 0) ∧
    sA.peak ≤ (stepE qNum cfgT rowsA sA 0).state.peak :=
  C5_peak_monotone_without_liquidation qNum cfgT rowsA sA 0 (by norm_num)
    (by norm_num [sA, resetE, rowsA])
    (Or.inl (by norm_num [ddOf, peak1Of, nw1Of, tradeOf, executeTrade, priceAt,
      rowAt, sA, resetE, cfgT, rowsA, rowP100, List.getD]))

/-- Warm-up counterexample data: four rows at price 100. -/
def rowsWarm : List DataRow := List.replicate 4 rowP100

/-- Warm-up counterexample state: all cash deployed (balance 0, 900
shares, net worth 90000 at its own peak), warm-up counter at 5, so the
hold step produces `raw_reward = -3` (the stop-loss penalty) with no
other component active. -/
def sWarm : EnvState :=
  { balance := 0, position := 900, net_worth := 90000, prev_net_worth := 90000
    last_action := 0, peak := 90000, current_step := 3, transaction_count := 0
    consecutive_drawdown_steps := 0, returns_window := [], reward_history := []
    history := [], reward_ema := 0, reward_var_ema := 1/1000000, ema_alpha := 1/100
    reward_warmup_count := 5 }

/-- C6 counterexample: during warm-up the returned reward is NOT the raw
composed reward — on a step with `raw_reward = -3` (recorded as such in
the history) and warm-up counter 5, the squashing stage still runs and
the returned reward differs from `-3` (here `-3/4` under the concrete
squash instantiation; `C6_warmup_reward_squashed` shows the squash is
applied for every `Numerics`). -/
theorem C6_warmup_counterexample :
    sWarm.reward_warmup_count < 10 ∧
    lastRawReward (stepE qNum cfgT rowsWarm sWarm 0).state = -3 ∧
    (stepE qNum cfgT rowsWarm sWarm 0).reward = -(3/4) ∧
    (stepE qNum cfgT rowsWarm sWarm 0).reward ≠
      lastRawReward (stepE qNum cfgT rowsWarm sWarm 0).state := by
  refine ⟨by norm_num [sWarm], ?_, ?_, ?_⟩ <;>
    norm_num [stepE, stepMain, stateAfterOf, histEntryOf, lastRawReward, rawRewardOf,
      profitRewardOf, sharpeBonusOf, forcedStopPenaltyOf, forcedTpPenaltyOf,
      drawdownPenaltyFinal, transactionPenaltyOf, holdingBonusOf, favorableHoldFactorOf,
      normalizedRewardOf, normalized0Of, emaAfterOf, varAfterOf, returnsWindowOf,
      nwChangeOf, clipQ, listMean, listPopVar, v2Of, v1Of, v0Of, fullLiq, partialLiq,
      tradeOf, executeTrade, priceAt, rowAt, peak1Of, nw1Of, ddOf, terminatedOf,
      bankruptOf, nw2Of, qNum, sWarm, cfgT, rowsWarm, rowP100, clampStep, List.getD,
      List.replicate]

/-- C6 (amended): for every step taken on the main path with the warm-up
counter below 10 (and step index below 10, so no terminal penalty
applies), the EMA normalization is indeed skipped — the pre-squash value
is the raw reward — but the returned reward is
`tanh(raw_reward / reward_norm_factor) * reward_scale`, not the raw
reward itself: the squash-and-scale stage sits inside the `else` branch
of the dead `hasattr` guard and therefore applies during warm-up too. -/
theorem C6_warmup_reward_squashed (num : Numerics) (cfg : EnvConfig)
    (rows : List DataRow) (s : EnvState) (a : ℚ)
    (hv : -1 ≤ a ∧ a ≤ 1) (hk : s.current_step < rows.length)
    (hstep : s.current_step < 10) (hwarm : s.reward_warmup_count < 10) :
    (stepE num cfg rows s a).reward =
      num.tanh (lastRawReward (stepE num cfg rows s a).state /
        cfg.reward_weights.reward_norm_factor) * cfg.reward_weights.reward_scale := by
  rw [stepE_main_path num cfg rows s a hv hk]
  rw [lastRawReward_stepMain]
  have hb : bankruptOf cfg rows s a = false := by
    apply decide_eq_false
    rintro ⟨h10, h0⟩
    omega
  show (if bankruptOf cfg rows s a then normalizedRewardOf num cfg rows s a - 10
      else normalizedRewardOf num cfg rows s a) = _
  rw [hb]
  show normalizedRewardOf num cfg rows s a = _
  unfold normalizedRewardOf normalized0Of
  rw [if_pos hwarm]

/-- C6 amended witness: the warm-up scenario evaluated — the reward is
the squash of the recorded raw reward. -/
theorem C6_warmup_reward_squashed_witness :
    (stepE qNum cfgT rowsWarm sWarm 0).reward =
      qNum.tanh (lastRawReward (stepE qNum cfgT rowsWarm sWarm 0).state /
        cfgT.reward_weights.reward_norm_factor) * cfgT.reward_weights.reward_scale :=
  C6_warmup_reward_squashed qNum cfgT rowsWarm sWarm 0 (by norm_num)
    (by norm_num [sWarm, rowsWarm]) (by norm_num [sWarm]) (by norm_num [sWarm])

/-- Default construction (transaction cost 0.0001, all weight
defaults). -/
def cfgD : EnvConfig := {}

/-- A calm row: zero volatility and RSI 70, so a fresh hold step earns
the full holding bonus `0.001 * net_worth = 100` as its raw reward. -/
def rowHold : DataRow :=
  { date := 0, features := [FVal.fin 1], close := 100, adx := 0, sma10 := 0
    sma50 := 0, volatility := 0, rsi := 70 }

/-- Data frame for the cold-start scenario. -/
def rowsHold : List DataRow := [rowHold]

/-- C7: contrary to the documented cold-start behaviour (and the inline
comment in the source), the EMA mean is NOT initialized to the first
observed raw reward, and the first step's reward is NOT the raw reward:
`reset` pre-initializes `reward_ema = 0`, so the `hasattr`-guarded
cold-start branch is dead code.  On a fresh reset whose first raw reward
is 100, the EMA mean after the first step is `alpha * 100 = 1` (an EMA
update against mean 0), and the returned reward is the squash of 100
(here `100/101`), not 100. -/
theorem C7_cold_start_divergence :
    (resetE cfgD rowsHold).1.reward_ema = 0 ∧
    lastRawReward (stepE qNum cfgD rowsHold (resetE cfgD rowsHold).1 0).state = 100 ∧
    (stepE qNum cfgD rowsHold (resetE cfgD rowsHold).1 0).state.reward_ema = 1 ∧
    (stepE qNum cfgD rowsHold (resetE cfgD rowsHold).1 0).reward = 100/101 := by
  refine ⟨by norm_num [resetE], ?_, ?_, ?_⟩ <;>
    norm_num [stepE, stepMain, stateAfterOf, histEntryOf, lastRawReward, rawRewardOf,
      profitRewardOf, sharpeBonusOf, forcedStopPenaltyOf, forcedTpPenaltyOf,
      drawdownPenaltyFinal, transactionPenaltyOf, holdingBonusOf, favorableHoldFactorOf,
      normalizedRewardOf, normalized0Of, emaAfterOf, varAfterOf, returnsWindowOf,
      nwChangeOf, clipQ, listMean, listPopVar, v2Of, v1Of, v0Of, fullLiq, partialLiq,
      tradeOf, executeTrade, priceAt, rowAt, peak1Of, nw1Of, ddOf, terminatedOf,
      bankruptOf, nw2Of, qNum, resetE, cfgD, rowsHold, rowHold, clampStep, List.getD]

/-- C8: the drawdown penalty that enters the raw reward is `0` for
drawdowns at most `0.05`; `-(2 + initial_balance * some_factor) * 1.25`
for drawdowns in `(0.05, 0.10]`; and
`-(2 + initial_balance * some_factor) * 1.25 * 1.25` beyond `0.10` — the
`x1.25` negative-magnitude normalization applied at the `0.10` threshold
is re-applied once more unconditionally at the end of the drawdown
evaluation. -/
theorem C8_drawdown_penalty_cases (cfg : EnvConfig) (dd : ℚ)
    (h : 0 ≤ cfg.initial_balance * cfg.some_factor) :
    (dd ≤ 1/20 → drawdownPenaltyFinal cfg dd = 0) ∧
    (1/20 < dd → dd ≤ 1/10 →
      drawdownPenaltyFinal cfg dd =
        -((2 + cfg.initial_balance * cfg.some_factor) * (5/4))) ∧
    (1/10 < dd →
      drawdownPenaltyFinal cfg dd =
        -((2 + cfg.initial_balance * cfg.some_factor) * (5/4) * (5/4))) := by
  simp only [drawdownPenaltyFinal]
  refine ⟨?_, ?_, ?_⟩
  · intro h1
    rw [if_neg (not_lt.mpr h1), if_neg (by intro h2; linarith)]
    simp
  · intro h1 h2
    rw [if_pos h1, if_neg (not_lt.mpr h2)]
    have h3 : |(0 : ℚ) - (2 + cfg.initial_balance * cfg.some_factor)| =
        2 + cfg.initial_balance * cfg.some_factor := by
      rw [zero_sub, abs_neg, abs_of_nonneg (by linarith)]
    rw [h3]
    ring
  · intro h1
    rw [if_pos (by linarith : 1/20 < dd), if_pos h1]
    have h3 : |(0 : ℚ) - (2 + cfg.initial_balance * cfg.some_factor)| =
        2 + cfg.initial_balance * cfg.some_factor := by
      rw [zero_sub, abs_neg, abs_of_nonneg (by linarith)]
    rw [h3]
    have h4 : |-(2 + cfg.initial_balance * cfg.some_factor) * (5/4 : ℚ)| =
        (2 + cfg.initial_balance * cfg.some_factor) * (5/4) := by
      rw [abs_mul, abs_neg, abs_of_nonneg (by linarith : (0:ℚ) ≤ 2 + _),
        abs_of_nonneg (by norm_num : (0:ℚ) ≤ 5/4)]
    rw [h4]
    ring

/-- C8 witness: with the default configuration (`initial_balance *
some_factor = 1000`) and drawdown `0.07`, the penalty is
`-(2 + 1000) * 1.25 = -1252.5`. -/
theorem C8_drawdown_penalty_cases_witness :
    drawdownPenaltyFinal cfgD (7/100) =
      -((2 + cfgD.initial_balance * cfgD.some_factor) * (5/4)) :=
  (C8_drawdown_penalty_cases cfgD (7/100) (by norm_num [cfgD])).2.1
    (by norm_num) (by norm_num)

/-- C9: on every path of `step` (invalid action, data overrun, and the
main path alike) and after `reset`, the returned observation vector has
exactly the fixed length `num_features + 3 + 3 + 2`, and the
`np.nan_to_num` scrub (`FVal.toQ`) maps every non-finite input cell to
`0`, so the vector consists of plain rationals with no NaN or infinity
left. -/
theorem C9_observation_wellformed (nf : ℕ) (cfg : EnvConfig) (rows : List DataRow)
    (hne : rows ≠ []) (hf : ∀ row ∈ rows, row.features.length = nf) :
    (resetE cfg rows).2.length = nf + 3 + 3 + 2 ∧
    (∀ (num : Numerics) (s : EnvState) (a : ℚ),
      (stepE num cfg rows s a).obs.length = nf + 3 + 3 + 2) ∧
    FVal.toQ FVal.nan = 0 ∧ FVal.toQ FVal.inf = 0 ∧ FVal.toQ FVal.neginf = 0 := by
  refine ⟨nextObservation_length cfg rows _ nf hne hf, ?_, rfl, rfl, rfl⟩
  intro num s a
  by_cases hv : -1 ≤ a ∧ a ≤ 1
  · by_cases hk : s.current_step < rows.length
    · rw [stepE_main_path num cfg rows s a hv hk]
      exact nextObservation_length cfg rows _ nf hne hf
    · simp only [stepE]
      rw [if_neg (not_not_intro hv), if_pos (not_lt.mp hk)]
      exact nextObservation_length cfg rows _ nf hne hf
  · simp only [stepE]
    rw [if_pos hv]
    exact nextObservation_length cfg rows _ nf hne hf

/-- C9 witness: a data frame whose single row carries a NaN and an
infinity among its three feature cells still yields length-11
observations from both `reset` and `step`. -/
theorem C9_observation_wellformed_witness :
    (resetE cfgT rowsA).2.length = 3 + 3 + 3 + 2 ∧
    (stepE qNum cfgT rowsA sA 1).obs.length = 3 + 3 + 3 + 2 := by
  have h := C9_observation_wellformed 3 cfgT rowsA (by norm_num [rowsA])
    (by intro row hrow
        rw [rowsA, List.mem_singleton] at hrow
        subst hrow
        norm_num [rowP100])
  exact ⟨h.1, h.2.1 qNum sA 1⟩

set_option maxHeartbeats 2000000 in
/-- C10: the `hold_threshold` configuration parameter never influences
behaviour — two environments identical except for `hold_threshold`
produce identical `step` results on every state and action (the
threshold's only use in `step` is a dead local read whose consuming block
is commented out) — and near-zero nonzero actions are executed as
trades: on a fresh default-config reset, the action `0.01` (well below
the default threshold `0.1`) buys 5 shares instead of holding. -/
theorem C10_hold_threshold_no_influence :
    (∀ (num : Numerics) (cfg : EnvConfig) (rows : List DataRow) (s : EnvState)
      (a h1 h2 : ℚ),
      stepE num { cfg with hold_threshold := h1 } rows s a =
        stepE num { cfg with hold_threshold := h2 } rows s a) ∧
    (resetE cfgD rowsHold).1.position = 0 ∧
    (stepE qNum cfgD rowsHold (resetE cfgD rowsHold).1 (1/100)).state.position = 5 := by
  refine ⟨?_, by norm_num [resetE], ?_⟩
  · intro num cfg rows s a h1 h2
    cases cfg
    rfl
  · norm_num [stepE, stepMain, stateAfterOf, v2Of, v1Of, v0Of, fullLiq, partialLiq,
      tradeOf, executeTrade, priceAt, rowAt, peak1Of, nw1Of, ddOf, terminatedOf,
      bankruptOf, nw2Of, resetE, cfgD, rowsHold, rowHold, clampStep, List.getD]

end TradingEnv
